import Mathlib

set_option autoImplicit false

/-
Shallow embedding of the bx-theory study-planner core
(src/agents/scheduler.py, src/agents/validator.py, src/main.py,
src/agents/validator_agent.py, src/agents/models.py).

Modelling conventions:
* Dates.  The Python code stores dates as "YYYY-MM-DD" strings and moves
  between strings and datetime values with strptime/strftime.  For valid
  date strings lexicographic string order, datetime order and the
  proleptic-Gregorian ordinal order (datetime.date.toordinal) all agree,
  and timedelta(days = n) / (a - b).days are ordinal arithmetic, so a date
  is embedded as its ordinal, a natural number.  Ordinal 1 (0001-01-01) is
  a Monday, matching datetime.weekday() where Monday = 0.
* A Python dict is embedded as an insertion-ordered association list; dict
  keys are unique, which theorems assume explicitly where it matters.
* Course.midterm_date is a string that the code only ever tests with
  "if not course.midterm_date" (falsy for None and ""); an absent-or-empty
  value is embedded as none, a parseable date as some ordinal.
* Session hours are Python floats used only in sums and comparisons; they
  are embedded as rationals.
* Python exceptions are embedded with Except; the only exceptions the
  claims touch are TypeError (None comparison) and json.JSONDecodeError.
-/

namespace BxTheory

/-- Python TypeError / json.JSONDecodeError markers for Except-valued code. -/
inductive PyError where
  | typeError
  | jsonDecodeError
deriving DecidableEq

instance instDecEqExcept {α β : Type} [DecidableEq α] [DecidableEq β] :
    DecidableEq (Except α β) := fun x y =>
  match x, y with
  | .error a, .error b =>
    if h : a = b then .isTrue (by subst h; rfl)
    else .isFalse (by intro hh; cases hh; exact h rfl)
  | .error _, .ok _ => .isFalse (by intro hh; cases hh)
  | .ok _, .error _ => .isFalse (by intro hh; cases hh)
  | .ok a, .ok b =>
    if h : a = b then .isTrue (by subst h; rfl)
    else .isFalse (by intro hh; cases hh; exact h rfl)

/-- models.py Topic: name, chapters, pages. -/
structure Topic where
  name : String
  chapters : List String
  pages : Int
deriving DecidableEq

/-- models.py Course; midterm_date none encodes a falsy (absent) date. -/
structure Course where
  name : String
  midterm_date : Option Nat
  midterm_weight : Int
  topics : List Topic
  total_pages : Int
deriving DecidableEq

/-- agents/models.py UserPreferences: max_hours_per_day is int | None. -/
structure UserPreferences where
  max_hours_per_day : Option Int
  preferred_study_times : List String
  rest_days : List String
  study_style : String
deriving DecidableEq

/-- models.py ParserOutput: the course catalog plus preferences. -/
structure ParserOutput where
  courses : List (String × Course)
  preferences : UserPreferences
deriving DecidableEq

/-- One session entry of a generated schedule day. -/
structure Session where
  course : String
  topic : String
  hours : ℚ
  type : String
deriving DecidableEq

/-- One day object of a generated schedule. -/
structure ScheduleDay where
  date : Nat
  sessions : List Session
deriving DecidableEq

abbrev Schedule := List ScheduleDay

/-- scheduler.py DAY_NAMES, indexed by datetime.weekday() (Monday = 0). -/
def DAY_NAMES : List String :=
  ["Monday", "Tuesday", "Wednesday", "Thursday", "Friday", "Saturday", "Sunday"]

/-- Weekday name of an ordinal date; ordinal 1 is a Monday. -/
def weekday_name (d : Nat) : String :=
  DAY_NAMES.getD ((d + 6) % 7) ""

/-- scheduler.py _get_valid_dates: every date from start (inclusive) to
end_exclusive (exclusive), skipping dates whose lowercased weekday name is
in the lowercased rest_days set.  The while-loop over day increments is the
filtered contiguous range. -/
def get_valid_dates (start end_exclusive : Nat) (rest_days : List String) : List Nat :=
  let rest_set := rest_days.map String.toLower
  (List.range' start (end_exclusive - start)).filter
    (fun d => !(rest_set.contains (weekday_name d).toLower))

/-
Validator (src/agents/validator.py).  The Python checks emit plain strings;
every emission site is a fixed f-string template whose literal prefix is
"ERROR:" or "WARNING:", and run_validator partitions issues by that prefix.
The embedding keeps one constructor per emission site carrying the data
interpolated into the template (lists that Python renders with sorted(...)
are carried in collection order; only the rendering sorts them).
-/
inductive Issue where
  | daily_hours_error (date : Nat) (total : ℚ)
  | daily_hours_warning (date : Nat) (total : ℚ) (max_hours : Int)
  | missing_topics (course : String) (missing : List String)
  | no_sessions (course : String)
  | on_after_exam (course : String) (midterm : Nat) (dates : List Nat)
  | last_session_gap (course : String) (gap : Int)
  | no_learning (topic course : String)
  | no_reviews (topic course : String)
  | review_too_soon (topic course : String) (gap : Int)
  | review_too_late (topic course : String) (gap : Int)
deriving DecidableEq

/-- Whether the issue's message template starts with "ERROR" (the literal
prefix written at its emission site in validator.py). -/
def is_error : Issue → Bool
  | .daily_hours_error _ _ => true
  | .missing_topics _ _ => true
  | .no_sessions _ => true
  | .on_after_exam _ _ _ => true
  | .no_learning _ _ => true
  | _ => false

/-- run_validator's partition `[i for i in all_issues if i.startswith("ERROR")]`. -/
def errors_of (issues : List Issue) : List Issue := issues.filter is_error

/-- validator.py _check_daily_hours.  For each day, total the session hours;
total > 8 appends an ERROR, elif total > max_hours appends a WARNING.  When
max_hours is None the elif comparison `total > None` raises TypeError, which
aborts the whole check (issues appended before the raise are lost). -/
def check_daily_hours : Schedule → Option Int → Except PyError (List Issue)
  | [], _ => .ok []
  | day :: rest, max_hours =>
    let total : ℚ := (day.sessions.map Session.hours).sum
    if total > 8 then
      match check_daily_hours rest max_hours with
      | .error e => .error e
      | .ok issues => .ok (Issue.daily_hours_error day.date total :: issues)
    else
      match max_hours with
      | none => .error .typeError
      | some m =>
        if total > (m : ℚ) then
          match check_daily_hours rest max_hours with
          | .error e => .error e
          | .ok issues => .ok (Issue.daily_hours_warning day.date total m :: issues)
        else
          check_daily_hours rest max_hours

/-- The topics given a "learning" session for a course, in schedule order
(validator.py _check_topic_coverage's `scheduled` dict, one course's set). -/
def learning_topics_for (schedule : Schedule) (code : String) : List String :=
  schedule.flatMap fun day => day.sessions.filterMap fun s =>
    if s.type == "learning" && s.course == code then some s.topic else none

/-- validator.py _check_topic_coverage.  For EVERY catalog course (no
midterm-date filter), the required topic-name set minus the scheduled
learning-topic set; nonempty difference emits one ERROR for the course. -/
def check_topic_coverage (schedule : Schedule) (parser_output : ParserOutput) : List Issue :=
  parser_output.courses.flatMap fun p =>
    let required := (p.2.topics.map Topic.name).eraseDups
    let found := learning_topics_for schedule p.1
    let missing := required.filter (fun n => !(found.contains n))
    if missing.isEmpty then [] else [Issue.missing_topics p.1 missing]

/-- All session dates recorded for a course, in schedule order
(validator.py _check_study_before_exam's course_dates dict, one course). -/
def session_dates_for (schedule : Schedule) (code : String) : List Nat :=
  schedule.flatMap fun day => day.sessions.filterMap fun s =>
    if s.course == code then some day.date else none

/-- The per-course body of validator.py _check_study_before_exam: no
session dates at all emits the no-sessions ERROR (and the loop continues);
otherwise dates on/after the exam emit an ERROR, and a last pre-exam
session more than 3 days before the exam emits a WARNING. -/
def course_deadline_check (code : String) (midterm : Nat) (dates : List Nat) : List Issue :=
  if dates.isEmpty then [Issue.no_sessions code]
  else
    let violations := dates.filter (fun d => decide (midterm ≤ d))
    let first := if violations.isEmpty then [] else [Issue.on_after_exam code midterm violations]
    let before := dates.filter (fun d => decide (d < midterm))
    let second :=
      match before.max? with
      | none => []
      | some last =>
        if (midterm : Int) - (last : Int) > 3 then
          [Issue.last_session_gap code ((midterm : Int) - (last : Int))]
        else []
    first ++ second

/-- validator.py _check_study_before_exam.  Courses without a midterm date
are skipped; every other course gets the per-course deadline body applied
to its recorded session dates. -/
def check_study_before_exam (schedule : Schedule) (parser_output : ParserOutput) : List Issue :=
  parser_output.courses.flatMap fun p =>
    match p.2.midterm_date with
    | none => []
    | some midterm => course_deadline_check p.1 midterm (session_dates_for schedule p.1)

/-- The (date, type) pairs recorded for one course/topic pair, in schedule
order (validator.py _check_spaced_repetition's topic_sessions dict). -/
def topic_sessions_for (schedule : Schedule) (code tname : String) : List (Nat × String) :=
  schedule.flatMap fun day => day.sessions.filterMap fun s =>
    if s.course == code && s.topic == tname then some (day.date, s.type) else none

/-- The per-topic body of validator.py _check_spaced_repetition: split the
topic's sessions into learning and review lists; no learning is an ERROR,
learning without review a WARNING, otherwise the gap from the first-listed
learning to the first-listed review is checked against the 2..7 day band. -/
def topic_spacing_check (code tname : String) (sessions : List (Nat × String)) : List Issue :=
  let learning := sessions.filter (fun p => p.2 == "learning")
  let reviews := sessions.filter (fun p => p.2 == "review_1" || p.2 == "review_2")
  match learning with
  | [] => [Issue.no_learning tname code]
  | l :: _ =>
    match reviews with
    | [] => [Issue.no_reviews tname code]
    | r :: _ =>
      let gap : Int := (r.1 : Int) - (l.1 : Int)
      if gap < 2 then [Issue.review_too_soon tname code gap]
      else if gap > 7 then [Issue.review_too_late tname code gap]
      else []

/-- validator.py _check_spaced_repetition: the per-topic body applied to
every topic of EVERY catalog course (no midterm-date filter). -/
def check_spaced_repetition (schedule : Schedule) (parser_output : ParserOutput) : List Issue :=
  parser_output.courses.flatMap fun p =>
    p.2.topics.flatMap fun t =>
      topic_spacing_check p.1 t.name (topic_sessions_for schedule p.1 t.name)

/-- validator.py run_validator: the four checks in order, their issues
concatenated (CSV formatting is out of scope).  check 1 receives
preferences.max_hours_per_day directly, so its TypeError propagates. -/
def run_validator (parser_output : ParserOutput) (schedule : Schedule) :
    Except PyError (List Issue) :=
  match check_daily_hours schedule parser_output.preferences.max_hours_per_day with
  | .error e => .error e
  | .ok i1 =>
    .ok (i1 ++ check_topic_coverage schedule parser_output
            ++ check_study_before_exam schedule parser_output
            ++ check_spaced_repetition schedule parser_output)

/-- The course of a deadline-check (_check_study_before_exam) issue. -/
def deadline_issue_course : Issue → Option String
  | .no_sessions c => some c
  | .on_after_exam c _ _ => some c
  | .last_session_gap c _ => some c
  | _ => none

/-
PriorityRanker (scheduler.py determine_priorities).  The request built for
the ranking oracle summarises EVERY catalog course (there is no
midterm-date filter on courses_summary), and course_codes lists the
summary's keys.  The oracle's raw text and json.loads are abstracted into
the parse outcome: .ok with the parsed table (downstream code reads only
the course_priorities mapping) or .error jsonDecodeError.
-/

/-- Per-course summary sent to the ranking oracle. -/
structure CourseSummary where
  midterm_date : Option Nat
  midterm_weight : Int
  total_pages : Int
  num_topics : Nat
deriving DecidableEq

/-- The ranking request: courses_summary over all catalog courses, plus
course_codes = list(courses_summary.keys()). -/
structure PriorityRequest where
  courses_summary : List (String × CourseSummary)
  course_codes : List String
deriving DecidableEq

/-- The request determine_priorities builds (scheduler.py lines 92-102). -/
def priority_request_of (parser_output : ParserOutput) : PriorityRequest :=
  let summary := parser_output.courses.map fun p =>
    (p.1, CourseSummary.mk p.2.midterm_date p.2.midterm_weight p.2.total_pages p.2.topics.length)
  ⟨summary, summary.map Prod.fst⟩

/-- One entry of the parsed course_priorities table. -/
structure PriorityEntry where
  priority_score : ℚ
  reasoning : String
deriving DecidableEq

/-- The parsed priorities object: its course_priorities mapping. -/
structure CoursePriorities where
  course_priorities : List (String × PriorityEntry)
deriving DecidableEq

/-- The reasoning string of the except-branch default entries. -/
def default_reasoning : String := "Default priority (JSON parsing failed)"

/-- scheduler.py determine_priorities, lines 129-141: json.loads success
returns the parsed object verbatim; JSONDecodeError is caught and replaced
by a default table giving EVERY course code score 5.0. -/
def determine_priorities (parser_output : ParserOutput)
    (parsed : Except PyError CoursePriorities) : CoursePriorities :=
  match parsed with
  | .ok p => p
  | .error _ =>
    ⟨(priority_request_of parser_output).course_codes.map fun code =>
      (code, PriorityEntry.mk 5 default_reasoning)⟩

/-
ScheduleSynthesizer (scheduler.py generate_schedule / regenerate_schedule).
The deterministic precomputation embedded in both prompts is captured as a
Precomp record; the prompt text around it interpolates exactly these values
(plus today/priorities, and for repair the error list and previous
schedule).  generate_schedule and regenerate_schedule duplicate the
courses_spec / latest_exam computation verbatim, so those helpers are
shared; the parts whose source text differs (valid_topics condition,
valid_dates guard) are transcribed separately in each precomp function.
-/

/-- One courses_spec entry; topics carries the (name, pages) dicts. -/
structure CourseSpec where
  midterm_date : Nat
  last_valid_study_date : Nat
  midterm_weight : Int
  total_pages : Int
  topics : List (String × Int)
deriving DecidableEq

/-- The courses_spec value built for one eligible course:
last_valid_study_date = midterm_date - 1 day. -/
def course_spec_of (midterm : Nat) (c : Course) : CourseSpec :=
  ⟨midterm, midterm - 1, c.midterm_weight, c.total_pages, c.topics.map fun t => (t.name, t.pages)⟩

/-- The courses_spec loop of both generate_schedule and
regenerate_schedule: courses without a (truthy) midterm date are skipped. -/
def courses_spec_of (parser_output : ParserOutput) : List (String × CourseSpec) :=
  parser_output.courses.filterMap fun p =>
    match p.2.midterm_date with
    | none => none
    | some md => some (p.1, course_spec_of md p.2)

/-- One step of the latest_exam running maximum: skip courses without a
midterm date, otherwise take the new date when it strictly exceeds the
accumulator (`if latest_exam is None or course.midterm_date > latest_exam`). -/
def latest_step (acc : Option Nat) (p : String × Course) : Option Nat :=
  match p.2.midterm_date with
  | none => acc
  | some md =>
    match acc with
    | none => some md
    | some latest => if md > latest then some md else acc

/-- The latest_exam fold of both generate_schedule and regenerate_schedule:
running maximum of eligible midterm dates (string comparison on
"YYYY-MM-DD" equals ordinal comparison). -/
def latest_exam_of (parser_output : ParserOutput) : Option Nat :=
  parser_output.courses.foldl latest_step none

/-- Rule 6 text when max_hours_per_day is falsy (None or 0). -/
def soft_hours_rule : String :=
  "6. Total hours per day should be reasonable (4-6 hours recommended)."

/-- The conditional rule-6 text of both generate and regenerate:
`f"6. ... MUST NOT exceed {max_hours}." if max_hours else soft` (Python
truthiness: None and 0 both select the soft rule). -/
def max_hours_rule_of (max_hours : Option Int) : String :=
  match max_hours with
  | some m =>
    if m ≠ 0 then "6. Total hours per day MUST NOT exceed " ++ toString m ++ "." else soft_hours_rule
  | none => soft_hours_rule

/-- review_rule_8 when total_topics > 15. -/
def review_rule_8_large : String :=
  "8. Due to many topics, only HIGH-PRIORITY topics (from highest priority course) need review_1 sessions. Other topics only need learning sessions."

/-- review_rule_9 when total_topics > 15. -/
def review_rule_9_large : String :=
  "9. Skip review_2 sessions entirely to keep the schedule manageable."

/-- review_rule_8 when 10 < total_topics <= 15. -/
def review_rule_8_medium : String :=
  "8. Every topic SHOULD have a review_1 session 3-5 days after learning, but you may skip review_1 for low-page topics (< 20 pages) if needed."

/-- review_rule_9 when 10 < total_topics <= 15. -/
def review_rule_9_medium : String :=
  "9. Only the highest-page topic per course should get a review_2 session."

/-- review_rule_8 when total_topics <= 10. -/
def review_rule_8_small : String :=
  "8. Every topic MUST appear at least once with type \"review_1\", scheduled 3-5 days after its \"learning\" session."

/-- review_rule_9 when total_topics <= 10. -/
def review_rule_9_small : String :=
  "9. High-page topics (>= 40 pages) should also get a \"review_2\" session, scheduled closer to the exam."

/-- The review-rule tiering if/elif/else of both generate_schedule (lines
206-216) and regenerate_schedule (lines 339-347). -/
def review_rules_of (total_topics : Nat) : String × String :=
  if total_topics > 15 then (review_rule_8_large, review_rule_9_large)
  else if total_topics > 10 then (review_rule_8_medium, review_rule_9_medium)
  else (review_rule_8_small, review_rule_9_small)

/-- The precomputed values interpolated into a generation/repair prompt. -/
structure Precomp where
  courses_spec : List (String × CourseSpec)
  valid_topics : List (String × List String)
  valid_dates : List Nat
  max_hours_rule : String
  total_topics : Nat
  review_rule_8 : String
  review_rule_9 : String
deriving DecidableEq

/-- generate_schedule's precomputation (scheduler.py lines 150-216): none
when courses_spec is empty (the early `return []`).  valid_topics keeps the
courses whose code is a key of courses_spec; valid_dates runs from
tomorrow to latest_exam (asserted non-None; the getD default is unreachable
when courses_spec is nonempty). -/
def gen_precomp (today : Nat) (parser_output : ParserOutput) : Option Precomp :=
  let start_date := today + 1
  let cs := courses_spec_of parser_output
  let latest_exam := latest_exam_of parser_output
  if cs.isEmpty then none
  else
    let vt := parser_output.courses.filterMap fun p =>
      if cs.any (fun q => q.1 == p.1) then some (p.1, p.2.topics.map Topic.name) else none
    let vd := get_valid_dates start_date (latest_exam.getD 0) parser_output.preferences.rest_days
    let tt := (vt.map fun p => p.2.length).sum
    let rules := review_rules_of tt
    some ⟨cs, vt, vd, max_hours_rule_of parser_output.preferences.max_hours_per_day,
          tt, rules.1, rules.2⟩

/-- regenerate_schedule's precomputation (scheduler.py lines 291-347):
same early return; valid_topics keeps the courses with a truthy
midterm_date; valid_dates is guarded by `if latest_exam else []`. -/
def regen_precomp (today : Nat) (parser_output : ParserOutput) : Option Precomp :=
  let start_date := today + 1
  let cs := courses_spec_of parser_output
  let latest_exam := latest_exam_of parser_output
  if cs.isEmpty then none
  else
    let vt := parser_output.courses.filterMap fun p =>
      if p.2.midterm_date.isSome then some (p.1, p.2.topics.map Topic.name) else none
    let vd :=
      match latest_exam with
      | some l => get_valid_dates start_date l parser_output.preferences.rest_days
      | none => []
    let tt := (vt.map fun p => p.2.length).sum
    let rules := review_rules_of tt
    some ⟨cs, vt, vd, max_hours_rule_of parser_output.preferences.max_hours_per_day,
          tt, rules.1, rules.2⟩

/-- The structured content of one generation request sent to the oracle. -/
structure GenRequest where
  today : Nat
  precomp : Precomp
  priorities : CoursePriorities
deriving DecidableEq

/-- scheduler.py generate_schedule as a whole: empty courses_spec returns
the empty schedule before any prompt is built; otherwise the prompt built
from the precomputation is sent to the oracle (the _llm_call plus
_safe_json_parse round trips are the oracle black box).  The Bool records
whether the generative oracle was invoked at all. -/
def generate_schedule (oracle : GenRequest → Schedule) (today : Nat)
    (parser_output : ParserOutput) (priorities : CoursePriorities) : Schedule × Bool :=
  match gen_precomp today parser_output with
  | none => ([], false)
  | some pc => (oracle ⟨today, pc, priorities⟩, true)

/-
FeedbackLoopController (src/main.py lines 55-82, mirrored by the
validation_attempt / escalate logic of validate_and_format in
src/agents/validator_agent.py).  MAX_RETRIES = 3: the for-loop over
attempts 1..3 validates the current candidate, breaks when the ERROR
partition is empty, and regenerates only while attempt < 3; the loop is
unrolled below.  validate abstracts `run_validator(parser_output, ·)` (the
issue list whose ERROR partition the loop inspects) and regen abstracts
`run_scheduler_retry(parser_output, priorities, schedule, errors)` at a
given retry number.
-/

/-- The controller's state at loop exit: the current candidate, the issue
list computed for it by the last validation, and how many repair
generations ran. -/
structure LoopState where
  schedule : Schedule
  issues : List Issue
  regens : Nat
deriving DecidableEq

/-- The main.py retry loop, unrolled for MAX_RETRIES = 3. -/
def run_loop (validate : Schedule → List Issue)
    (regen : Nat → Schedule → List Issue → Schedule) (init : Schedule) : LoopState :=
  let i1 := validate init
  if (errors_of i1).isEmpty then ⟨init, i1, 0⟩
  else
    let s2 := regen 1 init (errors_of i1)
    let i2 := validate s2
    if (errors_of i2).isEmpty then ⟨s2, i2, 1⟩
    else
      let s3 := regen 2 s2 (errors_of i2)
      ⟨s3, validate s3, 2⟩

/-- Claim C7: with N the total topic count across eligible courses, the
review-rule tier of the generation request is: N > 15 selects the large
tier (review_1 only for the highest-priority course's topics, review_2
dropped entirely); 11 <= N <= 15 selects the medium tier (review_1 may be
skipped for topics under 20 pages, only the single highest-page topic per
course gets review_2); N <= 10 selects the small tier (every topic gets at
least one review_1, topics of at least 40 pages also get review_2).  The
tier texts are the literal rule strings of scheduler.py. -/
theorem C7_review_tiering :
    (∀ (today : Nat) (po : ParserOutput) (pc : Precomp),
      gen_precomp today po = some pc →
        (pc.review_rule_8, pc.review_rule_9) = review_rules_of pc.total_topics) ∧
    (∀ n : Nat,
      (15 < n → review_rules_of n = (review_rule_8_large, review_rule_9_large)) ∧
      (11 ≤ n → n ≤ 15 → review_rules_of n = (review_rule_8_medium, review_rule_9_medium)) ∧
      (n ≤ 10 → review_rules_of n = (review_rule_8_small, review_rule_9_small))) := by
  constructor
  · intro today po pc h
    unfold gen_precomp at h
    by_cases hcs : (courses_spec_of po).isEmpty
    · simp [hcs] at h
    · simp only [hcs, if_false, Option.some.injEq, Bool.false_eq_true] at h
      subst h
      rfl
  · intro n
    refine ⟨fun h => ?_, fun h1 h2 => ?_, fun h => ?_⟩
    · simp [review_rules_of, h]
    · have hn : ¬ n > 15 := by omega
      have hm : n > 10 := by omega
      simp [review_rules_of, hn, hm]
    · have hn : ¬ n > 15 := by omega
      have hm : ¬ n > 10 := by omega
      simp [review_rules_of, hn, hm]

/-- Witness for C7 at concrete topic counts 17, 12 and 8. -/
theorem C7_review_tiering_witness :
    review_rules_of 17 = (review_rule_8_large, review_rule_9_large) ∧
    review_rules_of 12 = (review_rule_8_medium, review_rule_9_medium) ∧
    review_rules_of 8 = (review_rule_8_small, review_rule_9_small) :=
  ⟨(C7_review_tiering.2 17).1 (by omega),
   (C7_review_tiering.2 12).2.1 (by omega) (by omega),
   (C7_review_tiering.2 8).2.2 (by omega)⟩

/-- Claim C4 (code bug evaluation): the set-max_hours boundary behaviour
the claim describes is exact — a day totalling 8 hours with
max_hours_per_day = 6 is a WARNING not an ERROR, 8.01 hours is an ERROR,
6.5 hours with max 6 is a WARNING — but with max_hours_per_day absent
(None), a day totalling 5 hours does not yield "no issue": the elif
comparison `total > None` raises TypeError. -/
theorem C4_daily_hours_eval :
    check_daily_hours [⟨739000, [⟨"CS101", "T1", 5, "learning"⟩]⟩] none
      = .error .typeError ∧
    check_daily_hours [⟨739000, [⟨"CS101", "T1", 8, "learning"⟩]⟩] (some 6)
      = .ok [Issue.daily_hours_warning 739000 8 6] ∧
    check_daily_hours [⟨739000, [⟨"CS101", "T1", 801/100, "learning"⟩]⟩] (some 6)
      = .ok [Issue.daily_hours_error 739000 (801/100)] ∧
    check_daily_hours [⟨739000, [⟨"CS101", "T1", 13/2, "learning"⟩]⟩] (some 6)
      = .ok [Issue.daily_hours_warning 739000 (13/2) 6] := by
  refine ⟨?_, ?_, ?_, ?_⟩ <;> norm_num [check_daily_hours]

/-- Counterexample to claim C2: in a catalog whose only course NOEXAM has
no midterm_date, the course appears in the PriorityRanker's request
(courses_summary / course_codes carry every catalog course), and
validating the empty candidate emits a coverage ERROR and a spacing ERROR
for that course — so it is neither absent from the ranking request nor
exempt from every validator rule family. -/
theorem C2_counterexample :
    "NOEXAM" ∈ (priority_request_of
      ⟨[("NOEXAM", ⟨"No Exam Course", none, 50, [⟨"T1", [], 10⟩], 10⟩)],
       ⟨some 6, ["morning"], [], "spaced_repetition"⟩⟩).course_codes ∧
    check_topic_coverage []
      ⟨[("NOEXAM", ⟨"No Exam Course", none, 50, [⟨"T1", [], 10⟩], 10⟩)],
       ⟨some 6, ["morning"], [], "spaced_repetition"⟩⟩
      = [Issue.missing_topics "NOEXAM" ["T1"]] ∧
    check_spaced_repetition []
      ⟨[("NOEXAM", ⟨"No Exam Course", none, 50, [⟨"T1", [], 10⟩], 10⟩)],
       ⟨some 6, ["morning"], [], "spaced_repetition"⟩⟩
      = [Issue.no_learning "T1" "NOEXAM"] := by
  refine ⟨?_, ?_, ?_⟩ <;> decide

/-- Counterexample to claim C3: when the ranking oracle's output parses but
omits required course CS102, determine_priorities returns the parsed table
verbatim — no priority_score 5.0 entry is substituted for CS102. -/
theorem C3_counterexample :
    determine_priorities
      ⟨[("CS101", ⟨"Intro CS", some 739080, 30, [⟨"A", [], 20⟩], 20⟩),
        ("CS102", ⟨"Data Structures", some 739090, 40, [⟨"B", [], 25⟩], 25⟩)],
       ⟨some 6, [], [], "spaced_repetition"⟩⟩
      (.ok ⟨[("CS101", ⟨7, "closest exam"⟩)]⟩)
      = ⟨[("CS101", ⟨7, "closest exam"⟩)]⟩ ∧
    "CS102" ∉ (determine_priorities
      ⟨[("CS101", ⟨"Intro CS", some 739080, 30, [⟨"A", [], 20⟩], 20⟩),
        ("CS102", ⟨"Data Structures", some 739090, 40, [⟨"B", [], 25⟩], 25⟩)],
       ⟨some 6, [], [], "spaced_repetition"⟩⟩
      (.ok ⟨[("CS101", ⟨7, "closest exam"⟩)]⟩)).course_priorities.map Prod.fst := by
  refine ⟨?_, ?_⟩ <;> decide

/-- Issues that are all warnings have an empty ERROR partition. -/
theorem errors_of_isEmpty_of_no_error {issues : List Issue}
    (h : ∀ i ∈ issues, is_error i = false) : (errors_of issues).isEmpty = true := by
  have : errors_of issues = [] := by
    refine List.filter_eq_nil_iff.mpr fun i hi => ?_
    simp [h i hi]
  simp [this]

/-- Claim C1: the feedback-loop controller performs at most 3 generation
attempts in total (1 initial plus at most 2 repairs, so regens is at most
2); on exit it carries the last produced candidate together with the issue
list the last validation computed for it; it exits the loop as soon as a
validation pass returns zero ERRORs (a clean first pass exits with no
repair, a clean second pass exits after one repair, and the loop only ends
with ERRORs remaining when both repairs were used); and warnings alone
never block completion (a pass whose issues are all non-ERRORs exits
immediately). -/
theorem C1_feedback_loop (validate : Schedule → List Issue)
    (regen : Nat → Schedule → List Issue → Schedule) (init : Schedule) :
    1 + (run_loop validate regen init).regens ≤ 3 ∧
    (run_loop validate regen init).issues
      = validate (run_loop validate regen init).schedule ∧
    ((errors_of (validate init)).isEmpty = true →
      run_loop validate regen init = ⟨init, validate init, 0⟩) ∧
    ((errors_of (validate init)).isEmpty = false →
      (errors_of (validate (regen 1 init (errors_of (validate init))))).isEmpty = true →
      run_loop validate regen init =
        ⟨regen 1 init (errors_of (validate init)),
         validate (regen 1 init (errors_of (validate init))), 1⟩) ∧
    ((errors_of (run_loop validate regen init).issues).isEmpty = false →
      (run_loop validate regen init).regens = 2) ∧
    ((∀ i ∈ validate init, is_error i = false) →
      run_loop validate regen init = ⟨init, validate init, 0⟩) := by
  by_cases h1 : (errors_of (validate init)).isEmpty = true
  · have hr : run_loop validate regen init = ⟨init, validate init, 0⟩ := by
      simp [run_loop, h1]
    rw [hr]
    exact ⟨by show 1 + 0 ≤ 3; omega, rfl, fun _ => rfl, fun hc _ => absurd h1 (by simp [hc]),
           fun hc => absurd h1 (by simp [hc]), fun _ => rfl⟩
  · have h1f : (errors_of (validate init)).isEmpty = false := by
      simpa using h1
    by_cases h2 : (errors_of (validate (regen 1 init (errors_of (validate init))))).isEmpty = true
    · have hr : run_loop validate regen init =
          ⟨regen 1 init (errors_of (validate init)),
           validate (regen 1 init (errors_of (validate init))), 1⟩ := by
        simp [run_loop, h1f, h2]
      rw [hr]
      exact ⟨by show 1 + 1 ≤ 3; omega, rfl, fun hc => absurd hc h1, fun _ _ => rfl,
             fun hc => absurd h2 (by simp [hc]),
             fun hw => absurd (errors_of_isEmpty_of_no_error hw) h1⟩
    · have h2f : (errors_of (validate (regen 1 init (errors_of (validate init))))).isEmpty
          = false := by simpa using h2
      have hr : run_loop validate regen init =
          ⟨regen 2 (regen 1 init (errors_of (validate init)))
             (errors_of (validate (regen 1 init (errors_of (validate init))))),
           validate (regen 2 (regen 1 init (errors_of (validate init)))
             (errors_of (validate (regen 1 init (errors_of (validate init)))))), 2⟩ := by
        simp [run_loop, h1f, h2f]
      rw [hr]
      exact ⟨by show 1 + 2 ≤ 3; omega, rfl, fun hc => absurd hc h1, fun _ hc => absurd hc h2,
             fun _ => rfl,
             fun hw => absurd (errors_of_isEmpty_of_no_error hw) h1⟩

/-- Witness for C1: with a validator that always returns an empty issue
list, the loop exits at once with the initial candidate, its (empty) issue
list, and zero repairs. -/
theorem C1_feedback_loop_witness :
    run_loop (fun _ => []) (fun _ s _ => s) [] = ⟨[], [], 0⟩ :=
  (C1_feedback_loop (fun _ => []) (fun _ s _ => s) []).2.2.1 (by decide)

/-- Claim C5: check_spaced_repetition is the per-topic spacing body applied
to every topic of every catalog course, and for a topic with at least one
learning and at least one review session the body compares the first-listed
learning date with the first-listed review date: a gap strictly below 2
days yields the too-soon WARNING, a gap strictly above 7 days yields the
too-late WARNING, and a gap of 2..7 days inclusive yields no issue for that
topic. -/
theorem C5_spacing_band :
    (∀ (schedule : Schedule) (po : ParserOutput),
      check_spaced_repetition schedule po =
        po.courses.flatMap fun p => p.2.topics.flatMap fun t =>
          topic_spacing_check p.1 t.name (topic_sessions_for schedule p.1 t.name)) ∧
    (∀ (code tname : String) (sessions : List (Nat × String))
        (l r : Nat × String) (ls rs : List (Nat × String)),
      sessions.filter (fun p => p.2 == "learning") = l :: ls →
      sessions.filter (fun p => p.2 == "review_1" || p.2 == "review_2") = r :: rs →
      topic_spacing_check code tname sessions =
        (if (r.1 : Int) - (l.1 : Int) < 2 then
          [Issue.review_too_soon tname code ((r.1 : Int) - (l.1 : Int))]
        else if (r.1 : Int) - (l.1 : Int) > 7 then
          [Issue.review_too_late tname code ((r.1 : Int) - (l.1 : Int))]
        else [])) := by
  refine ⟨fun schedule po => rfl, fun code tname sessions l r ls rs hl hr => ?_⟩
  simp only [topic_spacing_check]
  rw [hl, hr]

/-- Witness for C5: a learning session followed 3 days later by review_1
sits inside the 2..7 band and yields no spacing issue; a 1-day gap yields
the too-soon WARNING. -/
theorem C5_spacing_band_witness :
    topic_spacing_check "CS101" "T1" [(739010, "learning"), (739013, "review_1")] = [] ∧
    topic_spacing_check "CS101" "T2" [(739010, "learning"), (739011, "review_1")]
      = [Issue.review_too_soon "T2" "CS101" 1] := by
  constructor
  · rw [C5_spacing_band.2 "CS101" "T1" [(739010, "learning"), (739013, "review_1")]
      (739010, "learning") (739013, "review_1") [] [] (by decide) (by decide)]
    decide
  · rw [C5_spacing_band.2 "CS101" "T2" [(739010, "learning"), (739011, "review_1")]
      (739010, "learning") (739011, "review_1") [] [] (by decide) (by decide)]
    decide

/-- Claim C9: when no catalog course has a midterm_date, generate_schedule
returns the empty schedule and never invokes the generative oracle (the
early return fires before any prompt is built). -/
theorem C9_no_eligible_no_oracle (oracle : GenRequest → Schedule) (today : Nat)
    (po : ParserOutput) (priorities : CoursePriorities)
    (h : ∀ p ∈ po.courses, p.2.midterm_date = none) :
    generate_schedule oracle today po priorities = ([], false) := by
  have hcs : courses_spec_of po = [] := by
    unfold courses_spec_of
    refine List.filterMap_eq_nil_iff.mpr fun p hp => ?_
    rw [h p hp]
  unfold generate_schedule gen_precomp
  simp [hcs]

/-- Witness for C9 on a one-course catalog whose course lacks a midterm. -/
theorem C9_no_eligible_no_oracle_witness :
    generate_schedule (fun _ => []) 739000
      ⟨[("NOEXAM", ⟨"No Exam Course", none, 50, [⟨"T1", [], 10⟩], 10⟩)],
       ⟨some 6, [], ["sunday"], "spaced_repetition"⟩⟩ ⟨[]⟩ = ([], false) :=
  C9_no_eligible_no_oracle _ _ _ _ (by decide)

/-- Claim C10: a course that has a midterm_date but no session of any type
anywhere in the candidate receives the no-scheduled-sessions ERROR from the
deadline check; consequently validating the empty candidate against a
catalog with at least one eligible course always returns at least one
ERROR. -/
theorem C10_missing_course_error :
    (∀ (po : ParserOutput) (schedule : Schedule) (code : String) (c : Course),
      (code, c) ∈ po.courses → c.midterm_date.isSome = true →
      (∀ day ∈ schedule, ∀ s ∈ day.sessions, s.course ≠ code) →
      Issue.no_sessions code ∈ check_study_before_exam schedule po) ∧
    (∀ po : ParserOutput, (∃ p ∈ po.courses, p.2.midterm_date.isSome = true) →
      ∃ issues, run_validator po [] = .ok issues ∧ errors_of issues ≠ []) := by
  have part1 : ∀ (po : ParserOutput) (schedule : Schedule) (code : String) (c : Course),
      (code, c) ∈ po.courses → c.midterm_date.isSome = true →
      (∀ day ∈ schedule, ∀ s ∈ day.sessions, s.course ≠ code) →
      Issue.no_sessions code ∈ check_study_before_exam schedule po := by
    intro po schedule code c hmem hsome hnone
    obtain ⟨md, hmd⟩ := Option.isSome_iff_exists.mp hsome
    have hdates : session_dates_for schedule code = [] := by
      unfold session_dates_for
      rw [List.flatMap_eq_nil_iff]
      intro day hday
      refine List.filterMap_eq_nil_iff.mpr fun s hs => ?_
      have : (s.course == code) = false := by
        simpa using hnone day hday s hs
      simp [this]
    unfold check_study_before_exam
    refine List.mem_flatMap.mpr ⟨(code, c), hmem, ?_⟩
    simp [hmd, hdates, course_deadline_check]
  refine ⟨part1, fun po ⟨p, hp, hsome⟩ => ?_⟩
  have hmem : Issue.no_sessions p.1 ∈ check_study_before_exam [] po :=
    part1 po [] p.1 p.2 (by simpa using hp) hsome (by simp)
  refine ⟨[] ++ check_topic_coverage [] po ++ check_study_before_exam [] po
      ++ check_spaced_repetition [] po, rfl, ?_⟩
  have : Issue.no_sessions p.1 ∈ errors_of
      ([] ++ check_topic_coverage [] po ++ check_study_before_exam [] po
        ++ check_spaced_repetition [] po) := by
    refine List.mem_filter.mpr ⟨?_, rfl⟩
    simp only [List.mem_append]
    exact Or.inl (Or.inr hmem)
  exact List.ne_nil_of_mem this

/-- Witness for C10: a one-course eligible catalog whose empty candidate
yields the no-sessions ERROR. -/
theorem C10_missing_course_error_witness :
    ∃ issues, run_validator
      ⟨[("CS101", ⟨"Intro CS", some 739080, 30, [⟨"A", [], 20⟩], 20⟩)],
       ⟨some 6, [], [], "spaced_repetition"⟩⟩ [] = .ok issues ∧ errors_of issues ≠ [] :=
  C10_missing_course_error.2
    ⟨[("CS101", ⟨"Intro CS", some 739080, 30, [⟨"A", [], 20⟩], 20⟩)],
     ⟨some 6, [], [], "spaced_repetition"⟩⟩
    ⟨("CS101", ⟨"Intro CS", some 739080, 30, [⟨"A", [], 20⟩], 20⟩), by decide, by decide⟩

/-- A code is a courses_spec key exactly when some catalog course with that
code has a midterm date. -/
theorem mem_courses_spec_keys {po : ParserOutput} {code : String} :
    code ∈ (courses_spec_of po).map Prod.fst ↔
      ∃ c : Course, (code, c) ∈ po.courses ∧ c.midterm_date.isSome = true := by
  constructor
  · intro h
    simp only [courses_spec_of, List.mem_map, List.mem_filterMap] at h
    obtain ⟨q, ⟨p, hp, hfq⟩, hq1⟩ := h
    cases hmd : p.2.midterm_date with
    | none => rw [hmd] at hfq; cases hfq
    | some md =>
      rw [hmd] at hfq
      simp only [Option.some.injEq] at hfq
      subst hfq
      refine ⟨p.2, ?_, by simp [hmd]⟩
      have hp1 : p.1 = code := hq1
      rw [← hp1]
      simpa using hp
  · rintro ⟨c, hmem, hsome⟩
    obtain ⟨md, hmd⟩ := Option.isSome_iff_exists.mp hsome
    simp only [courses_spec_of, List.mem_map, List.mem_filterMap]
    exact ⟨(code, course_spec_of md c), ⟨(code, c), hmem, by simp [hmd]⟩, rfl⟩

/-- latest_step never loses a defined accumulator, and never decreases it. -/
theorem latest_step_acc_le {acc : Option Nat} {a : Nat} (q : String × Course)
    (ha : acc = some a) : ∃ b, latest_step acc q = some b ∧ a ≤ b := by
  subst ha
  unfold latest_step
  cases hmd : q.2.midterm_date with
  | none => exact ⟨a, rfl, le_refl a⟩
  | some md =>
    by_cases h : md > a
    · exact ⟨md, by simp [h], le_of_lt h⟩
    · exact ⟨a, by simp [h], le_refl a⟩

/-- latest_step's result is at least the course's own midterm date. -/
theorem latest_step_md_le {q : String × Course} {md : Nat} (acc : Option Nat)
    (hmd : q.2.midterm_date = some md) : ∃ b, latest_step acc q = some b ∧ md ≤ b := by
  unfold latest_step
  rw [hmd]
  cases acc with
  | none => exact ⟨md, rfl, le_refl md⟩
  | some latest =>
    by_cases h : md > latest
    · exact ⟨md, by simp [h], le_refl md⟩
    · exact ⟨latest, by simp [h], by omega⟩

/-- latest_step either keeps the accumulator or returns the course's own
midterm date. -/
theorem latest_step_cases (acc : Option Nat) (q : String × Course) :
    latest_step acc q = acc ∨
      ∃ md, q.2.midterm_date = some md ∧ latest_step acc q = some md := by
  unfold latest_step
  cases hmd : q.2.midterm_date with
  | none => exact Or.inl rfl
  | some md =>
    cases acc with
    | none => exact Or.inr ⟨md, rfl, rfl⟩
    | some latest =>
      by_cases h : md > latest
      · exact Or.inr ⟨md, rfl, by simp [h]⟩
      · exact Or.inl (by simp [h])

/-- The latest_exam fold dominates its accumulator and every midterm date
in the list. -/
theorem foldl_latest_ub : ∀ (l : List (String × Course)) (acc : Option Nat) (x : Nat),
    List.foldl latest_step acc l = some x →
    (∀ a, acc = some a → a ≤ x) ∧
    (∀ p ∈ l, ∀ md, p.2.midterm_date = some md → md ≤ x) := by
  intro l
  induction l with
  | nil =>
    intro acc x h
    rw [List.foldl_nil] at h
    refine ⟨fun a ha => ?_, fun p hp => absurd hp (List.not_mem_nil p)⟩
    rw [ha] at h
    cases h
    exact le_refl x
  | cons q l ih =>
    intro acc x h
    rw [List.foldl_cons] at h
    have ihh := ih (latest_step acc q) x h
    constructor
    · intro a ha
      obtain ⟨b, hb, hab⟩ := latest_step_acc_le q ha
      exact le_trans hab (ihh.1 b hb)
    · intro p hp md hmd
      rcases List.mem_cons.mp hp with rfl | hp2
      · obtain ⟨b, hb, hmb⟩ := latest_step_md_le acc hmd
        exact le_trans hmb (ihh.1 b hb)
      · exact ihh.2 p hp2 md hmd

/-- The latest_exam fold's value is the accumulator or an actual midterm
date of the list. -/
theorem foldl_latest_mem : ∀ (l : List (String × Course)) (acc : Option Nat) (x : Nat),
    List.foldl latest_step acc l = some x →
    acc = some x ∨ ∃ p ∈ l, p.2.midterm_date = some x := by
  intro l
  induction l with
  | nil =>
    intro acc x h
    rw [List.foldl_nil] at h
    exact Or.inl h
  | cons q l ih =>
    intro acc x h
    rw [List.foldl_cons] at h
    rcases ih _ _ h with hacc | ⟨p, hp, hmd⟩
    · rcases latest_step_cases acc q with he | ⟨md, hmd, he⟩
      · rw [he] at hacc
        exact Or.inl hacc
      · rw [he] at hacc
        injection hacc with hx
        subst hx
        exact Or.inr ⟨q, List.mem_cons_self q l, hmd⟩
    · exact Or.inr ⟨p, List.mem_cons_of_mem q hp, hmd⟩

/-- The latest_exam fold is defined whenever the accumulator is, or some
list element has a midterm date. -/
theorem foldl_latest_isSome : ∀ (l : List (String × Course)) (acc : Option Nat),
    (acc.isSome = true ∨ ∃ p ∈ l, p.2.midterm_date.isSome = true) →
    (List.foldl latest_step acc l).isSome = true := by
  intro l
  induction l with
  | nil =>
    intro acc h
    rw [List.foldl_nil]
    rcases h with h | ⟨p, hp, _⟩
    · exact h
    · exact absurd hp (List.not_mem_nil p)
  | cons q l ih =>
    intro acc h
    rw [List.foldl_cons]
    apply ih
    rcases h with h | ⟨p, hp, hps⟩
    · obtain ⟨a, ha⟩ := Option.isSome_iff_exists.mp h
      obtain ⟨b, hb, _⟩ := latest_step_acc_le q ha
      exact Or.inl (by simp [hb])
    · rcases List.mem_cons.mp hp with rfl | hp2
      · obtain ⟨md, hmd⟩ := Option.isSome_iff_exists.mp hps
        obtain ⟨b, hb, _⟩ := latest_step_md_le acc hmd
        exact Or.inl (by simp [hb])
      · exact Or.inr ⟨p, hp2, hps⟩

/-- A nonempty courses_spec forces latest_exam to be defined (the assert in
generate_schedule). -/
theorem latest_exam_isSome_of_spec {po : ParserOutput}
    (h : (courses_spec_of po).isEmpty = false) : (latest_exam_of po).isSome = true := by
  have hne : courses_spec_of po ≠ [] := by
    intro hh
    rw [hh] at h
    cases h
  have hex : ∃ p ∈ po.courses, p.2.midterm_date.isSome = true := by
    by_contra hall
    push_neg at hall
    apply hne
    unfold courses_spec_of
    refine List.filterMap_eq_nil_iff.mpr fun p hp => ?_
    have hnp := hall p hp
    cases hmd : p.2.midterm_date with
    | none => simp [hmd]
    | some md => simp [hmd] at hnp
  exact foldl_latest_isSome po.courses none (Or.inr hex)

/-- Membership in _get_valid_dates: the half-open day range minus rest-day
weekdays, compared case-insensitively. -/
theorem mem_get_valid_dates {s e : Nat} {rest : List String} {d : Nat} :
    d ∈ get_valid_dates s e rest ↔
      s ≤ d ∧ d < e ∧ (weekday_name d).toLower ∉ rest.map String.toLower := by
  constructor
  · intro h
    simp only [get_valid_dates] at h
    rw [List.mem_filter] at h
    obtain ⟨hr, hp⟩ := h
    rw [List.mem_range'_1] at hr
    refine ⟨hr.1, by omega, fun hmem => ?_⟩
    rw [Bool.not_eq_true'] at hp
    have hc : (rest.map String.toLower).contains ((weekday_name d).toLower) = true :=
      List.elem_iff.mpr hmem
    rw [hc] at hp
    cases hp
  · rintro ⟨h1, h2, h3⟩
    simp only [get_valid_dates]
    rw [List.mem_filter]
    refine ⟨List.mem_range'_1.mpr ⟨h1, by omega⟩, ?_⟩
    show (!((rest.map String.toLower).contains ((weekday_name d).toLower))) = true
    cases hb : (rest.map String.toLower).contains ((weekday_name d).toLower) with
    | false => rfl
    | true => exact absurd (List.elem_iff.mp hb) h3

/-- gen_precomp on an empty courses_spec. -/
theorem gen_precomp_none {today : Nat} {po : ParserOutput}
    (hcs : (courses_spec_of po).isEmpty = true) : gen_precomp today po = none := by
  unfold gen_precomp
  simp [hcs]

/-- regen_precomp on an empty courses_spec. -/
theorem regen_precomp_none {today : Nat} {po : ParserOutput}
    (hcs : (courses_spec_of po).isEmpty = true) : regen_precomp today po = none := by
  unfold regen_precomp
  simp [hcs]

/-- gen_precomp's record, written out, when courses_spec is nonempty. -/
theorem gen_precomp_eq_some {today : Nat} {po : ParserOutput}
    (hcs : (courses_spec_of po).isEmpty = false) :
    gen_precomp today po = some
      ⟨courses_spec_of po,
       po.courses.filterMap fun p =>
         if (courses_spec_of po).any (fun q => q.1 == p.1) then
           some (p.1, p.2.topics.map Topic.name) else none,
       get_valid_dates (today + 1) ((latest_exam_of po).getD 0) po.preferences.rest_days,
       max_hours_rule_of po.preferences.max_hours_per_day,
       ((po.courses.filterMap fun p =>
         if (courses_spec_of po).any (fun q => q.1 == p.1) then
           some (p.1, p.2.topics.map Topic.name) else none).map fun p => p.2.length).sum,
       (review_rules_of ((po.courses.filterMap fun p =>
         if (courses_spec_of po).any (fun q => q.1 == p.1) then
           some (p.1, p.2.topics.map Topic.name) else none).map fun p => p.2.length).sum).1,
       (review_rules_of ((po.courses.filterMap fun p =>
         if (courses_spec_of po).any (fun q => q.1 == p.1) then
           some (p.1, p.2.topics.map Topic.name) else none).map fun p => p.2.length).sum).2⟩ := by
  unfold gen_precomp
  simp [hcs]

/-- regen_precomp's record, written out, when courses_spec is nonempty. -/
theorem regen_precomp_eq_some {today : Nat} {po : ParserOutput}
    (hcs : (courses_spec_of po).isEmpty = false) :
    regen_precomp today po = some
      ⟨courses_spec_of po,
       po.courses.filterMap fun p =>
         if p.2.midterm_date.isSome then some (p.1, p.2.topics.map Topic.name) else none,
       (match latest_exam_of po with
        | some l => get_valid_dates (today + 1) l po.preferences.rest_days
        | none => []),
       max_hours_rule_of po.preferences.max_hours_per_day,
       ((po.courses.filterMap fun p =>
         if p.2.midterm_date.isSome then some (p.1, p.2.topics.map Topic.name) else none).map
           fun p => p.2.length).sum,
       (review_rules_of ((po.courses.filterMap fun p =>
         if p.2.midterm_date.isSome then some (p.1, p.2.topics.map Topic.name) else none).map
           fun p => p.2.length).sum).1,
       (review_rules_of ((po.courses.filterMap fun p =>
         if p.2.midterm_date.isSome then some (p.1, p.2.topics.map Topic.name) else none).map
           fun p => p.2.length).sum).2⟩ := by
  unfold regen_precomp
  simp [hcs]

/-- Every issue the per-course deadline body emits names that course. -/
theorem deadline_course_of_mem {code : String} {midterm : Nat} {dates : List Nat} {i : Issue}
    (h : i ∈ course_deadline_check code midterm dates) :
    deadline_issue_course i = some code := by
  unfold course_deadline_check at h
  by_cases hde : dates.isEmpty
  · rw [if_pos hde] at h
    simp only [List.mem_singleton] at h
    subst h
    rfl
  · rw [if_neg hde] at h
    simp only [List.mem_append] at h
    rcases h with h1 | h2
    · by_cases hv : (dates.filter (fun d => decide (midterm ≤ d))).isEmpty
      · rw [if_pos hv] at h1
        cases h1
      · rw [if_neg hv] at h1
        simp only [List.mem_singleton] at h1
        subst h1
        rfl
    · cases hm : (dates.filter (fun d => decide (d < midterm))).max? with
      | none =>
        rw [hm] at h2
        cases h2
      | some last =>
        rw [hm] at h2
        have h2b : i ∈ (if (midterm : Int) - (last : Int) > 3 then
            [Issue.last_session_gap code ((midterm : Int) - (last : Int))] else []) := h2
        by_cases hg : (midterm : Int) - (last : Int) > 3
        · rw [if_pos hg] at h2b
          simp only [List.mem_singleton] at h2b
          subst h2b
          rfl
        · rw [if_neg hg] at h2b
          cases h2b

/-- Amended claim C2: a course whose midterm_date is absent never appears
in the ScheduleSynthesizer's generation request — it is excluded both from
courses_spec and from valid_topics — and the deadline (study-before-exam)
check emits no issue naming it; however such a course does appear in the
PriorityRanker's request (every catalog course is summarised and ranked),
and the coverage and spacing rule families are not restricted to eligible
courses. -/
theorem C2_amended_exclusion (today : Nat) (po : ParserOutput) (code : String) (c : Course)
    (hnd : (po.courses.map Prod.fst).Nodup) (hmem : (code, c) ∈ po.courses)
    (habs : c.midterm_date = none) :
    code ∈ (priority_request_of po).course_codes ∧
    code ∉ (courses_spec_of po).map Prod.fst ∧
    (∀ pc : Precomp, gen_precomp today po = some pc →
      code ∉ pc.courses_spec.map Prod.fst ∧ code ∉ pc.valid_topics.map Prod.fst) ∧
    (∀ (schedule : Schedule) (i : Issue), i ∈ check_study_before_exam schedule po →
      deadline_issue_course i ≠ some code) := by
  have hkey : code ∉ (courses_spec_of po).map Prod.fst := by
    intro hc
    obtain ⟨c2, hc2, hc2s⟩ := mem_courses_spec_keys.mp hc
    have heq : (code, c2) = (code, c) := List.inj_on_of_nodup_map hnd hc2 hmem rfl
    have hcc : c2 = c := congrArg Prod.snd heq
    rw [hcc, habs] at hc2s
    cases hc2s
  refine ⟨?_, hkey, ?_, ?_⟩
  · simp only [priority_request_of, List.map_map]
    exact List.mem_map.mpr ⟨(code, c), hmem, rfl⟩
  · intro pc hpc
    have hcs : (courses_spec_of po).isEmpty = false := by
      cases hcs2 : (courses_spec_of po).isEmpty with
      | false => rfl
      | true =>
        rw [gen_precomp_none hcs2] at hpc
        cases hpc
    rw [gen_precomp_eq_some hcs] at hpc
    injection hpc with hpc
    subst hpc
    refine ⟨hkey, ?_⟩
    intro hvt
    apply hkey
    simp only [List.mem_map, List.mem_filterMap] at hvt
    obtain ⟨q, ⟨p, hp, hfp⟩, hq1⟩ := hvt
    by_cases hany : (courses_spec_of po).any (fun r => r.1 == p.1)
    · rw [if_pos hany] at hfp
      injection hfp with hfp
      subst hfp
      obtain ⟨r, hr, hrb⟩ := List.any_eq_true.mp hany
      have hr1 : r.1 = p.1 := by simpa using hrb
      refine List.mem_map.mpr ⟨r, hr, ?_⟩
      rw [hr1]
      exact hq1
    · rw [if_neg hany] at hfp
      cases hfp
  · intro schedule i hi hcode
    unfold check_study_before_exam at hi
    obtain ⟨p, hp, hbody⟩ := List.mem_flatMap.mp hi
    cases hmd : p.2.midterm_date with
    | none =>
      rw [hmd] at hbody
      cases hbody
    | some md =>
      rw [hmd] at hbody
      have hpi : deadline_issue_course i = some p.1 := deadline_course_of_mem hbody
      rw [hpi] at hcode
      injection hcode with hcode2
      have hpe : p = (code, c) := by
        apply List.inj_on_of_nodup_map hnd hp hmem
        simpa using hcode2
      rw [hpe] at hmd
      rw [habs] at hmd
      cases hmd

/-- Witness for C2's amended statement on a two-course catalog whose
course NOEX has no midterm_date. -/
theorem C2_amended_exclusion_witness :
    "NOEX" ∈ (priority_request_of
      ⟨[("MATH", ⟨"Math", some 15, 40, [⟨"M1", [], 30⟩], 30⟩),
        ("NOEX", ⟨"NoExam", none, 20, [⟨"N1", [], 10⟩], 10⟩)],
       ⟨some 6, [], [], "spaced_repetition"⟩⟩).course_codes ∧
    "NOEX" ∉ (courses_spec_of
      ⟨[("MATH", ⟨"Math", some 15, 40, [⟨"M1", [], 30⟩], 30⟩),
        ("NOEX", ⟨"NoExam", none, 20, [⟨"N1", [], 10⟩], 10⟩)],
       ⟨some 6, [], [], "spaced_repetition"⟩⟩).map Prod.fst ∧
    (∀ pc : Precomp, gen_precomp 10
      ⟨[("MATH", ⟨"Math", some 15, 40, [⟨"M1", [], 30⟩], 30⟩),
        ("NOEX", ⟨"NoExam", none, 20, [⟨"N1", [], 10⟩], 10⟩)],
       ⟨some 6, [], [], "spaced_repetition"⟩⟩ = some pc →
      "NOEX" ∉ pc.courses_spec.map Prod.fst ∧ "NOEX" ∉ pc.valid_topics.map Prod.fst) ∧
    (∀ (schedule : Schedule) (i : Issue), i ∈ check_study_before_exam schedule
      ⟨[("MATH", ⟨"Math", some 15, 40, [⟨"M1", [], 30⟩], 30⟩),
        ("NOEX", ⟨"NoExam", none, 20, [⟨"N1", [], 10⟩], 10⟩)],
       ⟨some 6, [], [], "spaced_repetition"⟩⟩ →
      deadline_issue_course i ≠ some "NOEX") :=
  C2_amended_exclusion 10
    ⟨[("MATH", ⟨"Math", some 15, 40, [⟨"M1", [], 30⟩], 30⟩),
      ("NOEX", ⟨"NoExam", none, 20, [⟨"N1", [], 10⟩], 10⟩)],
     ⟨some 6, [], [], "spaced_repetition"⟩⟩
    "NOEX" ⟨"NoExam", none, 20, [⟨"N1", [], 10⟩], 10⟩ (by decide) (by decide) rfl

/-- Claim C8: the repair step's precomputation is identical to the generate
step's — same courses_spec (with last_valid_study_date per course), same
valid_topics, same valid_dates, same hour-cap rule text, same total topic
count and the same review tiering rules — so the repair request differs
from the generate request only by the appended violation list and previous
candidate.  Stated over catalogs with unique course codes (Python dicts). -/
theorem C8_repair_same_precomp (today : Nat) (po : ParserOutput)
    (hnd : (po.courses.map Prod.fst).Nodup) :
    regen_precomp today po = gen_precomp today po := by
  cases hcs : (courses_spec_of po).isEmpty with
  | true => rw [gen_precomp_none hcs, regen_precomp_none hcs]
  | false =>
    rw [gen_precomp_eq_some hcs, regen_precomp_eq_some hcs]
    have hvt : (po.courses.filterMap fun p =>
        if (courses_spec_of po).any (fun q => q.1 == p.1) then
          some (p.1, p.2.topics.map Topic.name) else none)
        = po.courses.filterMap fun p =>
          if p.2.midterm_date.isSome then some (p.1, p.2.topics.map Topic.name) else none := by
      refine List.filterMap_congr fun p hp => ?_
      suffices hiff : ((courses_spec_of po).any (fun q => q.1 == p.1))
          = p.2.midterm_date.isSome by rw [hiff]
      cases hsome : p.2.midterm_date.isSome with
      | true =>
        obtain ⟨md, hmd⟩ := Option.isSome_iff_exists.mp hsome
        refine List.any_eq_true.mpr ⟨(p.1, course_spec_of md p.2), ?_, by simp⟩
        unfold courses_spec_of
        exact List.mem_filterMap.mpr ⟨p, hp, by simp [hmd]⟩
      | false =>
        rw [List.any_eq_false]
        intro q hq hbeq
        have hq1 : q.1 = p.1 := by simpa using hbeq
        have hkeymem : p.1 ∈ (courses_spec_of po).map Prod.fst := by
          rw [← hq1]
          exact List.mem_map_of_mem _ hq
        obtain ⟨c2, hc2, hc2s⟩ := mem_courses_spec_keys.mp hkeymem
        have hpe : (p.1, c2) = p := List.inj_on_of_nodup_map hnd hc2 hp rfl
        have hc2f : c2.midterm_date.isSome = false := by
          rw [← hpe] at hsome
          exact hsome
        rw [hc2s] at hc2f
        cases hc2f
    rw [hvt]
    obtain ⟨l, hl⟩ := Option.isSome_iff_exists.mp (latest_exam_isSome_of_spec hcs)
    rw [hl]
    rfl

/-- Witness for C8 on a concrete two-course catalog. -/
theorem C8_repair_same_precomp_witness :
    regen_precomp 10
      ⟨[("MATH", ⟨"Math", some 15, 40, [⟨"M1", [], 30⟩], 30⟩),
        ("PHYS", ⟨"Physics", some 14, 30, [⟨"P1", [], 45⟩], 45⟩)],
       ⟨some 6, [], ["Sunday"], "spaced_repetition"⟩⟩
    = gen_precomp 10
      ⟨[("MATH", ⟨"Math", some 15, 40, [⟨"M1", [], 30⟩], 30⟩),
        ("PHYS", ⟨"Physics", some 14, 30, [⟨"P1", [], 45⟩], 45⟩)],
       ⟨some 6, [], ["Sunday"], "spaced_repetition"⟩⟩ :=
  C8_repair_same_precomp 10
    ⟨[("MATH", ⟨"Math", some 15, 40, [⟨"M1", [], 30⟩], 30⟩),
      ("PHYS", ⟨"Physics", some 14, 30, [⟨"P1", [], 45⟩], 45⟩)],
     ⟨some 6, [], ["Sunday"], "spaced_repetition"⟩⟩ (by decide)

/-- Claim C6: when the generation request exists, its valid_dates sequence
is strictly ascending and contains exactly the days from tomorrow
(today + 1, inclusive) up to the latest midterm_date across eligible
courses (exclusive), minus the dates whose weekday name is in rest_days
under case-insensitive comparison; the bound really is the maximum
midterm date of the catalog's (eligible) courses. -/
theorem C6_valid_dates (today : Nat) (po : ParserOutput) (pc : Precomp)
    (h : gen_precomp today po = some pc) :
    ∃ latest, latest_exam_of po = some latest ∧
      (∃ p ∈ po.courses, p.2.midterm_date = some latest) ∧
      (∀ p ∈ po.courses, ∀ md, p.2.midterm_date = some md → md ≤ latest) ∧
      pc.valid_dates.Pairwise (· < ·) ∧
      (∀ d : Nat, d ∈ pc.valid_dates ↔
        (today + 1 ≤ d ∧ d < latest ∧
          (weekday_name d).toLower ∉ po.preferences.rest_days.map String.toLower)) := by
  have hcs : (courses_spec_of po).isEmpty = false := by
    cases hcs2 : (courses_spec_of po).isEmpty with
    | false => rfl
    | true =>
      rw [gen_precomp_none hcs2] at h
      cases h
  rw [gen_precomp_eq_some hcs] at h
  injection h with h
  subst h
  obtain ⟨l, hl⟩ := Option.isSome_iff_exists.mp (latest_exam_isSome_of_spec hcs)
  refine ⟨l, hl, ?_, (foldl_latest_ub po.courses none l hl).2, ?_, ?_⟩
  · rcases foldl_latest_mem po.courses none l hl with hc | hm
    · cases hc
    · exact hm
  · show (get_valid_dates (today + 1) ((latest_exam_of po).getD 0)
      po.preferences.rest_days).Pairwise (· < ·)
    simp only [get_valid_dates]
    exact List.Pairwise.filter _ (List.pairwise_lt_range' _ _)
  · intro d
    show d ∈ get_valid_dates (today + 1) ((latest_exam_of po).getD 0)
      po.preferences.rest_days ↔ _
    rw [hl, Option.getD_some]
    exact mem_get_valid_dates

/-- Witness for C6: a one-course catalog with midterm on day 15, today
day 10 and no rest days; the valid dates are exactly [11, 15). -/
theorem C6_valid_dates_witness :
    ∃ latest, latest_exam_of
        ⟨[("CS101", ⟨"Intro CS", some 15, 30, [⟨"A", [], 20⟩], 20⟩)],
         ⟨some 6, [], [], "spaced_repetition"⟩⟩ = some latest ∧
      (∃ p ∈ [("CS101", (⟨"Intro CS", some 15, 30, [⟨"A", [], 20⟩], 20⟩ : Course))],
        p.2.midterm_date = some latest) ∧
      (∀ p ∈ [("CS101", (⟨"Intro CS", some 15, 30, [⟨"A", [], 20⟩], 20⟩ : Course))],
        ∀ md, p.2.midterm_date = some md → md ≤ latest) ∧
      ([11, 12, 13, 14] : List Nat).Pairwise (· < ·) ∧
      (∀ d : Nat, d ∈ ([11, 12, 13, 14] : List Nat) ↔
        (10 + 1 ≤ d ∧ d < latest ∧
          (weekday_name d).toLower ∉ ([] : List String).map String.toLower)) :=
  C6_valid_dates 10
    ⟨[("CS101", ⟨"Intro CS", some 15, 30, [⟨"A", [], 20⟩], 20⟩)],
     ⟨some 6, [], [], "spaced_repetition"⟩⟩
    ⟨[("CS101", ⟨15, 14, 30, 20, [("A", 20)]⟩)], [("CS101", ["A"])], [11, 12, 13, 14],
     "6. Total hours per day MUST NOT exceed 6.", 1, review_rule_8_small, review_rule_9_small⟩
    (by decide)

/-- Amended claim C3: if the ranking oracle's output fails JSON parsing,
the PriorityRanker substitutes an entry with priority_score 5.0 and the
default reasoning string for EVERY catalog course and does not raise; but
output that parses while omitting required course codes is returned
unchanged, with no default entries substituted. -/
theorem C3_amended_default_on_parse_failure (po : ParserOutput) :
    (∀ p : CoursePriorities, determine_priorities po (.ok p) = p) ∧
    (∀ e : PyError, determine_priorities po (.error e) =
      ⟨po.courses.map fun q => (q.1, PriorityEntry.mk 5 default_reasoning)⟩) := by
  refine ⟨fun p => rfl, fun e => ?_⟩
  simp [determine_priorities, priority_request_of, List.map_map, Function.comp]

end BxTheory
